import Mathlib

/-
Verification of the tenants-update orchestrator of the fabric8-tenant
repository (package update, file update.go) against its design notes.

The Go code is shallowly embedded: the mutable singleton RunState record
(tenants_update row) becomes the structure TenantsUpdate, repository
methods become pure state transformers, and the stateful control flow of
the orchestrator and of the per-cluster batch runner becomes explicit
state passing that additionally records an event trace (repository calls,
sleeps, executor invocations) so that temporal statements of the design
notes can be expressed.
-/

namespace Fabric8Update

/-- Environment types (environment.Type in Go) are plain strings. -/
abbrev EnvType := String

/-- Run status of the tenants update process, constants of the update
package (Finished, Updating, Failed, Killed, Incomplete). -/
inductive Status
  | Finished
  | Updating
  | Failed
  | Killed
  | Incomplete
deriving DecidableEq, Repr, BEq

/-- The singleton RunState record of the tenants_update table.  The
per-environment-type current-version markers owned by the version
managers are modelled as an association list from environment type to
version string. -/
structure TenantsUpdate where
  status : Status
  lastTimeUpdated : Int
  failedCount : Nat
  canContinue : Bool
  versions : List (EnvType × String)
deriving DecidableEq, Repr, BEq

/-- Modelled from the spec: the Repository method PrepareForUpdating
(not part of the sources under analysis, only its call sites are) resets
failedCount to 0, sets canContinue to true and moves status to Updating. -/
def PrepareForUpdating (tu : TenantsUpdate) : TenantsUpdate :=
  { tu with status := Status.Updating, failedCount := 0, canContinue := true }

/-- Reads the per-type version marker stored on the RunState record. -/
def lookupVersion (vs : List (EnvType × String)) (t : EnvType) : String :=
  match vs.find? (fun p => p.1 == t) with
  | some p => p.2
  | none => ""

/-- Writes the per-type version marker stored on the RunState record. -/
def setVersionMarker (vs : List (EnvType × String)) (t : EnvType) (v : String) :
    List (EnvType × String) :=
  (vs.filter (fun p => !(p.1 == t))) ++ [(t, v)]

/-- Modelled from the spec: a VersionManager owns a group of environment
types and the current target version for them.  The managers themselves
(RetrieveVersionManagers) are not part of the sources under analysis,
only their interface EnvTypes / IsVersionUpToDate / SetCurrentVersion is
used there. -/
structure VersionManager where
  envTypes : List EnvType
  version : String
deriving DecidableEq, Repr, BEq

/-- Modelled from the spec: IsVersionUpToDate tests whether the RunState
per-type markers of all the types of this manager are already at the
latest (target) version. -/
def VersionManager.IsVersionUpToDate (vm : VersionManager) (tu : TenantsUpdate) : Bool :=
  vm.envTypes.all (fun t => lookupVersion tu.versions t == vm.version)

/-- Modelled from the spec: SetCurrentVersion commits the current target
version of this manager into the RunState per-type markers. -/
def VersionManager.SetCurrentVersion (vm : VersionManager) (tu : TenantsUpdate) : TenantsUpdate :=
  { tu with versions := vm.envTypes.foldl (fun vs t => setVersionMarker vs t vm.version) tu.versions }

/-- The environment-type filter of the updater: either the AllTypes
sentinel (allTypes, "no-limit") or the OneType restriction, as in
update.go lines 58-76. -/
inductive FilterEnvType
  | AllTypes
  | OneType (t : EnvType)
deriving DecidableEq, Repr, BEq

/-- FilterEnvType.IsOk from update.go: allTypes accepts everything,
OneType accepts exactly its own type. -/
def FilterEnvType.IsOk : FilterEnvType → EnvType → Bool
  | FilterEnvType.AllTypes, _ => true
  | FilterEnvType.OneType t, envType => envType == t

/-- The status-assignment part of setStatusAndVersionsAfterUpdate
(update.go lines 292-300): Killed if the kill switch was used, else
Failed if any tenant failed, else Incomplete if the run was restricted
to one environment type or one cluster, else Finished. -/
def setStatusAfterUpdate (filterEnvType : FilterEnvType) (limitToCluster : String)
    (tu : TenantsUpdate) : TenantsUpdate :=
  if !tu.canContinue then { tu with status := Status.Killed }
  else if tu.failedCount > 0 then { tu with status := Status.Failed }
  else if filterEnvType ≠ FilterEnvType.AllTypes ∨ limitToCluster ≠ "" then
    { tu with status := Status.Incomplete }
  else { tu with status := Status.Finished }

/-- The version-commit loop of setStatusAndVersionsAfterUpdate
(update.go lines 301-309): for each version manager, fold the filter
over its environment types and commit its version iff all of them pass. -/
def commitVersions (filterEnvType : FilterEnvType) (versionManagers : List VersionManager)
    (tu : TenantsUpdate) : TenantsUpdate :=
  versionManagers.foldl
    (fun acc vm =>
      let isOk := vm.envTypes.foldl (fun b envType => b && filterEnvType.IsOk envType) true
      if isOk then vm.SetCurrentVersion acc else acc)
    tu

/-- setStatusAndVersionsAfterUpdate from update.go (lines 287-315):
read the record, assign the terminal status, commit the versions of the
fully covered managers, save. -/
def setStatusAndVersionsAfterUpdate (filterEnvType : FilterEnvType) (limitToCluster : String)
    (versionManagers : List VersionManager) (tu : TenantsUpdate) : TenantsUpdate :=
  commitVersions filterEnvType versionManagers (setStatusAfterUpdate filterEnvType limitToCluster tu)

/-- SetCurrentVersion only touches the version markers. -/
theorem SetCurrentVersion_status (vm : VersionManager) (tu : TenantsUpdate) :
    (vm.SetCurrentVersion tu).status = tu.status := rfl

/-- The version-commit loop never changes the status field. -/
theorem commitVersions_status (filterEnvType : FilterEnvType)
    (versionManagers : List VersionManager) (tu : TenantsUpdate) :
    (commitVersions filterEnvType versionManagers tu).status = tu.status := by
  induction versionManagers generalizing tu with
  | nil => rfl
  | cons vm rest ih =>
      simp only [commitVersions, List.foldl_cons]
      by_cases h : (vm.envTypes.foldl (fun b envType => b && filterEnvType.IsOk envType) true) = true
      · simpa [commitVersions, h] using ih (vm.SetCurrentVersion tu)
      · simpa [commitVersions, h] using ih tu

/-- Likewise the failedCount and canContinue fields survive the commits. -/
theorem commitVersions_counters (filterEnvType : FilterEnvType)
    (versionManagers : List VersionManager) (tu : TenantsUpdate) :
    (commitVersions filterEnvType versionManagers tu).failedCount = tu.failedCount ∧
    (commitVersions filterEnvType versionManagers tu).canContinue = tu.canContinue := by
  induction versionManagers generalizing tu with
  | nil => exact ⟨rfl, rfl⟩
  | cons vm rest ih =>
      simp only [commitVersions, List.foldl_cons]
      by_cases h : (vm.envTypes.foldl (fun b envType => b && filterEnvType.IsOk envType) true) = true
      · simpa [commitVersions, h] using ih (vm.SetCurrentVersion tu)
      · simpa [commitVersions, h] using ih tu

/-- Folding conjunction of the filter over a type list is the same as
the all-types-pass test. -/
theorem foldl_and_eq_all (f : FilterEnvType) (l : List EnvType) (b : Bool) :
    l.foldl (fun acc envType => acc && f.IsOk envType) b = (b && l.all f.IsOk) := by
  induction l generalizing b with
  | nil => simp
  | cons t rest ih => simp [List.foldl_cons, ih, Bool.and_assoc]

/-- The status of the finalized record is exactly the value of the
kill-switch / failure-counter / filter priority chain, whatever the
version managers do afterwards. -/
theorem setStatusAndVersionsAfterUpdate_status (filterEnvType : FilterEnvType) (limitToCluster : String)
    (versionManagers : List VersionManager) (tu : TenantsUpdate) :
    (setStatusAndVersionsAfterUpdate filterEnvType limitToCluster versionManagers tu).status =
      (if tu.canContinue = false then Status.Killed
       else if tu.failedCount > 0 then Status.Failed
       else if filterEnvType ≠ FilterEnvType.AllTypes ∨ limitToCluster ≠ "" then Status.Incomplete
       else Status.Finished) := by
  rw [setStatusAndVersionsAfterUpdate, commitVersions_status, setStatusAfterUpdate]
  by_cases h1 : tu.canContinue
  · by_cases h2 : tu.failedCount > 0
    · simp [h1, h2]
    · by_cases h3 : filterEnvType ≠ FilterEnvType.AllTypes ∨ limitToCluster ≠ ""
      · simp [h1, h2, h3]
      · simp [h1, h2, h3]
  · have h1f : tu.canContinue = false := by simpa using h1
    simp [h1f]

/-- C2: finalization assigns exactly one terminal status, with the
priority order kill switch first (Killed), then failure counter
(Failed), then filter or cluster restriction (Incomplete), and Finished
only in the unrestricted clean case. -/
theorem finalStatus_priority_chain (filterEnvType : FilterEnvType) (limitToCluster : String)
    (versionManagers : List VersionManager) (tu : TenantsUpdate) :
    (setStatusAndVersionsAfterUpdate filterEnvType limitToCluster versionManagers tu).status =
      (if tu.canContinue = false then Status.Killed
       else if tu.failedCount > 0 then Status.Failed
       else if filterEnvType ≠ FilterEnvType.AllTypes ∨ limitToCluster ≠ "" then Status.Incomplete
       else Status.Finished) :=
  setStatusAndVersionsAfterUpdate_status filterEnvType limitToCluster versionManagers tu

/-- C6: at finalization a version manager commits its current version
(SetCurrentVersion runs) iff every one of its environment types is
accepted by the active filter: the whole finalization equals applying
the commits of exactly the all-types-pass managers on top of the
status-updated record.  The committed sublist is computed from the
filter alone, so the same managers commit for every RunState record and
hence for every terminal status. -/
theorem versionCommit_iff_all_types_pass (filterEnvType : FilterEnvType)
    (limitToCluster : String) (versionManagers : List VersionManager) (tu : TenantsUpdate) :
    setStatusAndVersionsAfterUpdate filterEnvType limitToCluster versionManagers tu =
      (versionManagers.filter (fun vm => vm.envTypes.all filterEnvType.IsOk)).foldl
        (fun acc vm => vm.SetCurrentVersion acc)
        (setStatusAfterUpdate filterEnvType limitToCluster tu) := by
  rw [setStatusAndVersionsAfterUpdate]
  generalize setStatusAfterUpdate filterEnvType limitToCluster tu = tu0
  induction versionManagers generalizing tu0 with
  | nil => rfl
  | cons vm rest ih =>
      simp only [commitVersions, List.foldl_cons, List.filter_cons]
      rw [foldl_and_eq_all, Bool.true_and]
      by_cases h : vm.envTypes.all filterEnvType.IsOk = true
      · simpa [commitVersions, h] using ih (vm.SetCurrentVersion tu0)
      · simpa [commitVersions, h, Bool.not_eq_true] using ih tu0

/-- The repository operations on the RunState record used by update.go. -/
inductive RepoOp
  | prepareForUpdating
  | getTenantsUpdate
  | saveTenantsUpdate
  | updateStatus
  | updateLastTimeUpdated
  | incrementFailedCount
  | canContinue
deriving DecidableEq, Repr, BEq

/-- Observable steps of the trigger entry point: repository calls (with
the flag telling whether the surrounding transaction was obtained with
the exclusive lock wrapper) and sleeps. -/
inductive TriggerEvent
  | repoCall (op : RepoOp) (locked : Bool)
  | sleep (duration : Int)
deriving DecidableEq, Repr, BEq

/-- The continuation chosen by the locked decision phase of
UpdateAllTenants: do nothing, run an update pass for the given types, or
wait and recheck (update.go lines 87-136 assign exactly one of these to
the followUp variable). -/
inductive FollowUp
  | noop
  | updateTenantsForTypes (envTypes : List EnvType)
  | waitAndRecheck
deriving DecidableEq, Repr, BEq

/-- addIfNotPresent from update.go (lines 392-405): append every type of
toAdd that is not already present. -/
def addIfNotPresent (types : List EnvType) (toAdd : List EnvType) : List EnvType :=
  toAdd.foldl (fun ts t => if ts.contains t then ts else ts ++ [t]) types

/-- checkVersions from update.go (lines 382-390): collect the
environment types of every version manager whose version is not up to
date on the RunState record (the always-nil error return is dropped). -/
def checkVersions (versionManagers : List VersionManager) (tu : TenantsUpdate) : List EnvType :=
  versionManagers.foldl
    (fun types vm => if !vm.IsVersionUpToDate tu then addIfNotPresent types vm.envTypes else types)
    []

/-- IsOlderThanTimeout from update.go (lines 198-200):
when.Before(now - retrySleep), with the automated-update retry sleep as
the timeout. -/
def IsOlderThanTimeout (timePoint now retrySleep : Int) : Bool :=
  timePoint < now - retrySleep

/-- The body of the locked transaction of UpdateAllTenants (update.go
lines 101-136) together with the followUp assignment of
prepareAndAssignStart: reads the record, dispatches on its status, and
returns the chosen continuation, the record as left in the database, and
the trace of repository calls. -/
def lockedTriggerBody (versionManagers : List VersionManager) (defaultEnvTypes : List EnvType)
    (now retrySleep : Int) (tu : TenantsUpdate) : FollowUp × TenantsUpdate × List TriggerEvent :=
  let base : List TriggerEvent := [TriggerEvent.repoCall RepoOp.getTenantsUpdate true]
  let start := fun (envTypes : List EnvType) =>
    (FollowUp.updateTenantsForTypes envTypes, PrepareForUpdating tu,
     base ++ [TriggerEvent.repoCall RepoOp.prepareForUpdating true])
  if tu.status = Status.Finished then
    let envTypesToUpdate := checkVersions versionManagers tu
    if envTypesToUpdate.length > 0 then start envTypesToUpdate
    else (FollowUp.noop, tu, base)
  else if tu.status = Status.Failed ∨ tu.status = Status.Killed ∨ tu.status = Status.Incomplete then
    start defaultEnvTypes
  else if tu.status = Status.Updating then
    if IsOlderThanTimeout tu.lastTimeUpdated now retrySleep then start defaultEnvTypes
    else (FollowUp.waitAndRecheck, tu, base)
  else (FollowUp.noop, tu, base)

/-- waitAndRecheck from update.go (lines 165-196): sleep the retry sleep
plus a tenth of it, re-acquire the lock once, re-read the record, and
restart with the full default type set iff it is now older than the
timeout; otherwise log and stop.  The record read after the sleep is the
parameter tu2, the time of the recheck is now2. -/
def waitAndRecheckRun (defaultEnvTypes : List EnvType) (retrySleep now2 : Int)
    (tu2 : TenantsUpdate) : FollowUp × TenantsUpdate × List TriggerEvent :=
  let sleepEv := TriggerEvent.sleep (retrySleep + retrySleep / 10)
  if IsOlderThanTimeout tu2.lastTimeUpdated now2 retrySleep then
    (FollowUp.updateTenantsForTypes defaultEnvTypes, PrepareForUpdating tu2,
     [sleepEv, TriggerEvent.repoCall RepoOp.getTenantsUpdate true,
      TriggerEvent.repoCall RepoOp.prepareForUpdating true])
  else
    (FollowUp.noop, tu2, [sleepEv, TriggerEvent.repoCall RepoOp.getTenantsUpdate true])

/-- Membership in addIfNotPresent is membership in either argument. -/
theorem mem_addIfNotPresent (t : EnvType) (types toAdd : List EnvType) :
    t ∈ addIfNotPresent types toAdd ↔ t ∈ types ∨ t ∈ toAdd := by
  induction toAdd generalizing types with
  | nil => simp [addIfNotPresent]
  | cons a rest ih =>
      show t ∈ addIfNotPresent (if types.contains a then types else types ++ [a]) rest ↔ _
      rw [ih]
      by_cases h : types.contains a = true
      · rw [if_pos h]
        have ha : a ∈ types := by simpa using h
        simp only [List.mem_cons]
        constructor
        · rintro (hx | hx)
          · exact Or.inl hx
          · exact Or.inr (Or.inr hx)
        · rintro (hx | rfl | hx)
          · exact Or.inl hx
          · exact Or.inl ha
          · exact Or.inr hx
      · rw [if_neg h]
        simp [List.mem_append, List.mem_cons, or_assoc]

/-- Membership in the foldl underlying checkVersions. -/
theorem mem_checkVersions_foldl (vms : List VersionManager) (tu : TenantsUpdate)
    (acc : List EnvType) (t : EnvType) :
    t ∈ vms.foldl
        (fun types vm => if !vm.IsVersionUpToDate tu then addIfNotPresent types vm.envTypes else types)
        acc ↔
      t ∈ acc ∨ ∃ vm ∈ vms, vm.IsVersionUpToDate tu = false ∧ t ∈ vm.envTypes := by
  induction vms generalizing acc with
  | nil => simp
  | cons vm rest ih =>
      simp only [List.foldl_cons]
      by_cases h : vm.IsVersionUpToDate tu
      · rw [show (if !vm.IsVersionUpToDate tu then addIfNotPresent acc vm.envTypes else acc)
              = acc by simp [h]]
        rw [ih]
        simp only [List.mem_cons]
        constructor
        · rintro (hm | ⟨w, hw, hs, hmem⟩)
          · exact Or.inl hm
          · exact Or.inr ⟨w, Or.inr hw, hs, hmem⟩
        · rintro (hm | ⟨w, hw, hs, hmem⟩)
          · exact Or.inl hm
          · rcases hw with he | hw
            · rw [he] at hs; rw [h] at hs; cases hs
            · exact Or.inr ⟨w, hw, hs, hmem⟩
      · rw [show (if !vm.IsVersionUpToDate tu then addIfNotPresent acc vm.envTypes else acc)
              = addIfNotPresent acc vm.envTypes by simp [h]]
        rw [ih, mem_addIfNotPresent]
        simp only [List.mem_cons, or_assoc]
        constructor
        · rintro (hm | hm | ⟨w, hw, hs, hmem⟩)
          · exact Or.inl hm
          · exact Or.inr ⟨vm, Or.inl rfl, Bool.eq_false_iff.mpr h, hm⟩
          · exact Or.inr ⟨w, Or.inr hw, hs, hmem⟩
        · rintro (hm | ⟨w, hw, hs, hmem⟩)
          · exact Or.inl hm
          · rcases hw with he | hw
            · exact Or.inr (Or.inl (he ▸ hmem))
            · exact Or.inr (Or.inr ⟨w, hw, hs, hmem⟩)

/-- A type is collected by checkVersions iff some stale version manager
owns it. -/
theorem mem_checkVersions (vms : List VersionManager) (tu : TenantsUpdate) (t : EnvType) :
    t ∈ checkVersions vms tu ↔
      ∃ vm ∈ vms, vm.IsVersionUpToDate tu = false ∧ t ∈ vm.envTypes := by
  rw [checkVersions, mem_checkVersions_foldl]
  simp

/-- A manager reporting not-up-to-date owns at least one type whose
marker differs, so its type list is nonempty. -/
theorem stale_has_type (vm : VersionManager) (tu : TenantsUpdate)
    (h : vm.IsVersionUpToDate tu = false) : vm.envTypes ≠ [] := by
  intro hnil
  rw [VersionManager.IsVersionUpToDate, hnil] at h
  simp at h

/-- checkVersions is nonempty iff some version manager is stale. -/
theorem checkVersions_ne_nil_iff (vms : List VersionManager) (tu : TenantsUpdate) :
    checkVersions vms tu ≠ [] ↔ ∃ vm ∈ vms, vm.IsVersionUpToDate tu = false := by
  constructor
  · intro h
    rcases List.exists_mem_of_ne_nil _ h with ⟨t, ht⟩
    rcases (mem_checkVersions vms tu t).mp ht with ⟨vm, hvm, hs, _⟩
    exact ⟨vm, hvm, hs⟩
  · rintro ⟨vm, hvm, hs⟩
    rcases List.exists_mem_of_ne_nil _ (stale_has_type vm tu hs) with ⟨t, ht⟩
    intro hnil
    have : t ∈ checkVersions vms tu := (mem_checkVersions vms tu t).mpr ⟨vm, hvm, hs, ht⟩
    rw [hnil] at this
    cases this

/-- A RunState record with a cleanly finished previous run and a stale
marker "v1" for the type che. -/
def tuFinishedStale : TenantsUpdate :=
  { status := Status.Finished, lastTimeUpdated := 0, failedCount := 0,
    canContinue := true, versions := [("che", "v1")] }

/-- A version manager for the single type che targeting version "v2". -/
def vmChe : VersionManager := { envTypes := ["che"], version := "v2" }

/-- A RunState record of an ongoing run last touched at time 0. -/
def tuUpdatingOld : TenantsUpdate :=
  { status := Status.Updating, lastTimeUpdated := 0, failedCount := 0,
    canContinue := true, versions := [] }

/-- C3: for a RunState with status Finished, the trigger starts a run
iff at least one version manager is stale, the run is scoped to exactly
the union of the stale managers environment types, and with nothing
stale the trigger leaves the record untouched and performs only the
single read, so an immediate re-trigger after a clean finish is a
no-op. -/
theorem finished_trigger_iff_stale (vms : List VersionManager) (devs : List EnvType)
    (now retrySleep : Int) (tu : TenantsUpdate) (h : tu.status = Status.Finished) :
    ((lockedTriggerBody vms devs now retrySleep tu).1 ≠ FollowUp.noop ↔
       ∃ vm ∈ vms, vm.IsVersionUpToDate tu = false) ∧
    (∀ types, (lockedTriggerBody vms devs now retrySleep tu).1 =
        FollowUp.updateTenantsForTypes types →
       ∀ t, t ∈ types ↔ ∃ vm ∈ vms, vm.IsVersionUpToDate tu = false ∧ t ∈ vm.envTypes) ∧
    ((∀ vm ∈ vms, vm.IsVersionUpToDate tu = true) →
       lockedTriggerBody vms devs now retrySleep tu =
         (FollowUp.noop, tu, [TriggerEvent.repoCall RepoOp.getTenantsUpdate true])) := by
  have hb : lockedTriggerBody vms devs now retrySleep tu =
      (if (checkVersions vms tu).length > 0 then
        (FollowUp.updateTenantsForTypes (checkVersions vms tu), PrepareForUpdating tu,
         [TriggerEvent.repoCall RepoOp.getTenantsUpdate true,
          TriggerEvent.repoCall RepoOp.prepareForUpdating true])
       else (FollowUp.noop, tu, [TriggerEvent.repoCall RepoOp.getTenantsUpdate true])) := by
    simp [lockedTriggerBody, h]
  by_cases hcv : checkVersions vms tu = []
  · have hnostale : ¬ ∃ vm ∈ vms, vm.IsVersionUpToDate tu = false := by
      intro hex
      exact (checkVersions_ne_nil_iff vms tu).mpr hex hcv
    rw [hb, if_neg (by simp [hcv])]
    refine ⟨by simp [hnostale], ?_, fun _ => rfl⟩
    intro types hty
    simp at hty
  · have hlen : (checkVersions vms tu).length > 0 := List.length_pos.mpr hcv
    rw [hb, if_pos hlen]
    refine ⟨?_, ?_, ?_⟩
    · constructor
      · intro _
        exact (checkVersions_ne_nil_iff vms tu).mp hcv
      · intro _
        simp
    · intro types hty
      have hty2 : checkVersions vms tu = types := by
        injection hty
      intro t
      rw [← hty2]
      exact mem_checkVersions vms tu t
    · intro hall
      exfalso
      rcases (checkVersions_ne_nil_iff vms tu).mp hcv with ⟨vm, hvm, hs⟩
      rw [hall vm hvm] at hs
      cases hs

/-- Witness for C3 at a concrete stale configuration. -/
theorem finished_trigger_iff_stale_witness :
    (lockedTriggerBody [vmChe] ["user"] 100 10 tuFinishedStale).1 ≠ FollowUp.noop ↔
      ∃ vm ∈ [vmChe], vm.IsVersionUpToDate tuFinishedStale = false :=
  (finished_trigger_iff_stale [vmChe] ["user"] 100 10 tuFinishedStale rfl).1

/-- C4: for a RunState with status Updating, the trigger restarts with
the full default type set iff the record is older than the retry
timeout; otherwise it chooses the wait continuation after the single
locked read, and the wait continuation sleeps the retry sleep plus a
tenth of it, re-acquires the lock exactly once (a single further read),
and restarts iff the freshly read record is by then older than the
timeout, stopping without any further loop otherwise. -/
theorem updating_trigger_timeout_logic (vms : List VersionManager) (devs : List EnvType)
    (now now2 retrySleep : Int) (tu tu2 : TenantsUpdate) (h : tu.status = Status.Updating) :
    (IsOlderThanTimeout tu.lastTimeUpdated now retrySleep = true →
      lockedTriggerBody vms devs now retrySleep tu =
        (FollowUp.updateTenantsForTypes devs, PrepareForUpdating tu,
         [TriggerEvent.repoCall RepoOp.getTenantsUpdate true,
          TriggerEvent.repoCall RepoOp.prepareForUpdating true])) ∧
    (IsOlderThanTimeout tu.lastTimeUpdated now retrySleep = false →
      lockedTriggerBody vms devs now retrySleep tu =
        (FollowUp.waitAndRecheck, tu, [TriggerEvent.repoCall RepoOp.getTenantsUpdate true])) ∧
    (waitAndRecheckRun devs retrySleep now2 tu2 =
      if IsOlderThanTimeout tu2.lastTimeUpdated now2 retrySleep then
        (FollowUp.updateTenantsForTypes devs, PrepareForUpdating tu2,
         [TriggerEvent.sleep (retrySleep + retrySleep / 10),
          TriggerEvent.repoCall RepoOp.getTenantsUpdate true,
          TriggerEvent.repoCall RepoOp.prepareForUpdating true])
      else
        (FollowUp.noop, tu2,
         [TriggerEvent.sleep (retrySleep + retrySleep / 10),
          TriggerEvent.repoCall RepoOp.getTenantsUpdate true])) := by
  refine ⟨?_, ?_, ?_⟩
  · intro ht
    simp [lockedTriggerBody, h, ht]
  · intro ht
    simp [lockedTriggerBody, h, ht]
  · by_cases ht : IsOlderThanTimeout tu2.lastTimeUpdated now2 retrySleep = true
    · simp [waitAndRecheckRun, ht]
    · simp only [Bool.not_eq_true] at ht
      simp [waitAndRecheckRun, ht]

/-- Witness for C4 at a concrete timed-out record. -/
theorem updating_trigger_timeout_logic_witness :
    lockedTriggerBody [] ["user"] 100 10 tuUpdatingOld =
      (FollowUp.updateTenantsForTypes ["user"], PrepareForUpdating tuUpdatingOld,
       [TriggerEvent.repoCall RepoOp.getTenantsUpdate true,
        TriggerEvent.repoCall RepoOp.prepareForUpdating true]) :=
  (updating_trigger_timeout_logic [] ["user"] 100 0 10 tuUpdatingOld tuUpdatingOld rfl).1
    (by decide)

/-- C5: for a RunState with status Failed, Killed or Incomplete, a
trigger unconditionally prepares and restarts an update pass scoped to
the full default environment-type set, for every version-manager
configuration (that is, regardless of the staleness check). -/
theorem failed_killed_incomplete_always_restart (vms : List VersionManager)
    (devs : List EnvType) (now retrySleep : Int) (tu : TenantsUpdate)
    (h : tu.status = Status.Failed ∨ tu.status = Status.Killed ∨
         tu.status = Status.Incomplete) :
    lockedTriggerBody vms devs now retrySleep tu =
      (FollowUp.updateTenantsForTypes devs, PrepareForUpdating tu,
       [TriggerEvent.repoCall RepoOp.getTenantsUpdate true,
        TriggerEvent.repoCall RepoOp.prepareForUpdating true]) := by
  rcases h with h | h | h <;> simp [lockedTriggerBody, h]

/-- Witness for C5 at a concrete failed record. -/
theorem failed_killed_incomplete_always_restart_witness :
    lockedTriggerBody [vmChe] ["user", "che"] 100 10
        { status := Status.Failed, lastTimeUpdated := 50, failedCount := 3,
          canContinue := true, versions := [] } =
      (FollowUp.updateTenantsForTypes ["user", "che"],
       PrepareForUpdating
         { status := Status.Failed, lastTimeUpdated := 50, failedCount := 3,
           canContinue := true, versions := [] },
       [TriggerEvent.repoCall RepoOp.getTenantsUpdate true,
        TriggerEvent.repoCall RepoOp.prepareForUpdating true]) :=
  failed_killed_incomplete_always_restart [vmChe] ["user", "che"] 100 10 _ (Or.inl rfl)

/-- A tenant row as read by the batch runner (tenant.Tenant). -/
structure Tenant where
  id : String
  osUsername : String
deriving DecidableEq, Repr, BEq

/-- A namespace state (tenant package); the runner only distinguishes
Failed from the rest. -/
inductive NamespaceState
  | Ready
  | Failed
  | Provisioning
  | Updating
deriving DecidableEq, Repr, BEq

/-- A namespace record of a tenant (tenant.Namespace): type, name,
currently deployed version and state. -/
structure Namespace where
  type : EnvType
  name : String
  version : String
  state : NamespaceState
deriving DecidableEq, Repr, BEq

/-- The external collaborators of one cluster run: the namespace query
(none models a fetch error) and the executor outcome per tenant and
requested types (true models a failed Update call). -/
structure TenantWorld where
  namespacesOf : String → Option (List Namespace)
  executorFails : String → List EnvType → Bool

/-- Observable steps of a cluster batch runner. -/
inductive RunnerEvent
  | canContinueCheck (value : Bool)
  | namespacesFetch (tenantId : String) (ok : Bool)
  | executorUpdate (tenantId : String) (envTypes : List EnvType) (ok : Bool)
  | incrementFailedCount (locked : Bool)
  | sleepGap
  | updateLastTimeUpdated
deriving DecidableEq, Repr, BEq

/-- The evolving state of a cluster run: the RunState record in the
database and the number of canContinue checks performed so far (the
index into the externally mutated kill-switch history). -/
structure RunnerState where
  db : TenantsUpdate
  checks : Nat
deriving DecidableEq, Repr, BEq

/-- The namespace scan of updateTenant (update.go lines 349-359): for
each targeted type take the name of the first namespace of that type
that is outdated or failed. -/
def computeEnvTypesToUpdate (typesWithVersion : List (EnvType × String))
    (namespaces : List Namespace) : List EnvType × List String :=
  typesWithVersion.foldl
    (fun acc tv =>
      match namespaces.find? (fun ns =>
          ns.type == tv.1 && (!(ns.version == tv.2) || ns.state == NamespaceState.Failed)) with
      | some ns => (acc.1 ++ [tv.1], acc.2 ++ [ns.name])
      | none => acc)
    ([], [])

/-- updateTenant from update.go (lines 339-380): fetch the namespaces of
the tenant (on error only report and return), call the executor with the
stale types, and on executor failure increment failedCount inside a
locked transaction and report, never propagating an error. -/
def updateTenant (w : TenantWorld) (tnnt : Tenant) (typesWithVersion : List (EnvType × String))
    (st : RunnerState) : RunnerState × List RunnerEvent :=
  match w.namespacesOf tnnt.id with
  | none => (st, [RunnerEvent.namespacesFetch tnnt.id false])
  | some namespaces =>
      let envTypesToUpdate := (computeEnvTypesToUpdate typesWithVersion namespaces).1
      if w.executorFails tnnt.id envTypesToUpdate then
        ({ st with db := { st.db with failedCount := st.db.failedCount + 1 } },
         [RunnerEvent.namespacesFetch tnnt.id true,
          RunnerEvent.executorUpdate tnnt.id envTypesToUpdate false,
          RunnerEvent.incrementFailedCount true])
      else
        (st,
         [RunnerEvent.namespacesFetch tnnt.id true,
          RunnerEvent.executorUpdate tnnt.id envTypesToUpdate true])

/-- The RunnerState after one kill-switch check that observed the value
c: the observed value is recorded on the db record and the check counter
advances. -/
def nextRunnerState (st : RunnerState) (c : Bool) : RunnerState :=
  { db := { st.db with canContinue := c }, checks := st.checks + 1 }

/-- updateTenants from update.go (lines 317-337): for each tenant of the
batch first read canContinue in its own transaction (the observed value
comes from the kill-switch history seq, indexed by the number of checks
so far, and is recorded back into the db state), break immediately when
it is false, otherwise update the tenant and sleep the pacing gap.  The
returned flag is the last observed canContinue value; the function never
returns an error for an executor failure. -/
def updateTenants (w : TenantWorld) (seq : Nat → Bool)
    (typesWithVersion : List (EnvType × String)) :
    List Tenant → RunnerState → Bool → Bool × RunnerState × List RunnerEvent
  | [], st, canContinue => (canContinue, st, [])
  | tnnt :: rest, st, _ =>
      let c := seq st.checks
      let st1 : RunnerState := nextRunnerState st c
      if c then
        let step := updateTenant w tnnt typesWithVersion st1
        let next := updateTenants w seq typesWithVersion rest step.1 c
        (next.1, next.2.1,
         RunnerEvent.canContinueCheck c :: step.2 ++ RunnerEvent.sleepGap :: next.2.2)
      else
        (c, st1, [RunnerEvent.canContinueCheck c])

/-- updateForCluster from update.go (lines 254-285): repeatedly take the
next batch query result (an error aborts the runner with that error, an
empty batch ends it cleanly), run the batch, stop without error when the
kill switch was observed false, otherwise record progress by
UpdateLastTimeUpdated and continue.  The successive query results are
supplied as the list batches. -/
def updateForCluster (w : TenantWorld) (seq : Nat → Bool)
    (typesWithVersion : List (EnvType × String)) :
    List (Except String (List Tenant)) → RunnerState →
      RunnerState × Option String × List RunnerEvent
  | [], st => (st, none, [])
  | b :: rest, st =>
      match b with
      | Except.error e => (st, some e, [])
      | Except.ok toUpdate =>
          if toUpdate.length = 0 then (st, none, [])
          else
            let batch := updateTenants w seq typesWithVersion toUpdate st true
            if !batch.1 then (batch.2.1, none, batch.2.2)
            else
              let next := updateForCluster w seq typesWithVersion rest batch.2.1
              (next.1, next.2.1,
               batch.2.2 ++ RunnerEvent.updateLastTimeUpdated :: next.2.2)

/-- A single-cluster instance of the update pass of
updateTenantsForTypes (update.go lines 202-252): run the one cluster
runner; a runner error becomes the aggregate error of the pass, a clean
end is followed by the locked finalization. -/
def runClusterPass (w : TenantWorld) (seq : Nat → Bool)
    (typesWithVersion : List (EnvType × String))
    (batches : List (Except String (List Tenant)))
    (filterEnvType : FilterEnvType) (limitToCluster : String)
    (versionManagers : List VersionManager) (tu0 : TenantsUpdate) :
    Except String TenantsUpdate × List RunnerEvent :=
  let res := updateForCluster w seq typesWithVersion batches { db := tu0, checks := 0 }
  match res.2.1 with
  | some e => (Except.error e, res.2.2)
  | none =>
      (Except.ok (setStatusAndVersionsAfterUpdate filterEnvType limitToCluster
          versionManagers res.1.db),
       res.2.2)

/-- Events that belong to the processing of one tenant. -/
def RunnerEvent.isTenantProcessing : RunnerEvent → Bool
  | RunnerEvent.namespacesFetch _ _ => true
  | RunnerEvent.executorUpdate _ _ _ => true
  | RunnerEvent.incrementFailedCount _ => true
  | _ => false

/-- Whether the trace contains an observation of the kill switch being
false. -/
def hasFalseCheck (evs : List RunnerEvent) : Bool :=
  evs.any (fun ev => ev == RunnerEvent.canContinueCheck false)

/-- After the first false kill-switch observation, no tenant-processing
event may appear in the trace. -/
def noTenantAfterFalse : List RunnerEvent → Bool
  | [] => true
  | RunnerEvent.canContinueCheck false :: rest =>
      rest.all (fun ev => !ev.isTenantProcessing)
  | _ :: rest => noTenantAfterFalse rest

/-- Whether an event is a kill-switch check. -/
def RunnerEvent.isCheck : RunnerEvent → Bool
  | RunnerEvent.canContinueCheck _ => true
  | _ => false

/-- Whether an event is a namespace fetch (the start of the processing
of one tenant). -/
def RunnerEvent.isFetch : RunnerEvent → Bool
  | RunnerEvent.namespacesFetch _ _ => true
  | _ => false

/-- Number of kill-switch checks in a trace. -/
def countChecks (evs : List RunnerEvent) : Nat :=
  evs.countP (fun ev => ev.isCheck)

/-- Number of false kill-switch observations in a trace. -/
def countFalseChecks (evs : List RunnerEvent) : Nat :=
  evs.countP (fun ev => ev == RunnerEvent.canContinueCheck false)

/-- Number of tenant-processing attempts (namespace fetches) in a
trace. -/
def countFetches (evs : List RunnerEvent) : Nat :=
  evs.countP (fun ev => ev.isFetch)

/-- The trace of one updateTenant call contains no kill-switch check
and exactly one namespace fetch. -/
theorem updateTenant_events_shape (w : TenantWorld) (tnnt : Tenant)
    (twv : List (EnvType × String)) (st : RunnerState) :
    ((updateTenant w tnnt twv st).2.all (fun ev => !ev.isCheck)) = true ∧
    countFetches (updateTenant w tnnt twv st).2 = 1 := by
  rcases hns : w.namespacesOf tnnt.id with _ | nss
  · simp [updateTenant, hns, countFetches, RunnerEvent.isCheck, RunnerEvent.isFetch,
      List.countP_cons, List.countP_nil]
  · by_cases hf : w.executorFails tnnt.id (computeEnvTypesToUpdate twv nss).1 = true
    · simp [updateTenant, hns, hf, countFetches, RunnerEvent.isCheck, RunnerEvent.isFetch,
        List.countP_cons, List.countP_nil]
    · simp only [Bool.not_eq_true] at hf
      simp [updateTenant, hns, hf, countFetches, RunnerEvent.isCheck, RunnerEvent.isFetch,
        List.countP_cons, List.countP_nil]

/-- Count of a predicate is zero on a trace all of whose events falsify
it. -/
theorem countP_zero_of_all_not (p : RunnerEvent → Bool) (evs : List RunnerEvent)
    (h : evs.all (fun ev => !p ev) = true) : evs.countP p = 0 := by
  rw [List.countP_eq_zero]
  rw [List.all_eq_true] at h
  intro a ha
  have := h a ha
  simp at this
  simp [this]

/-- An event that is not a check is not a false check either. -/
theorem no_check_imp_no_false (evs : List RunnerEvent)
    (h : evs.all (fun ev => !ev.isCheck) = true) :
    evs.all (fun ev => !(ev == RunnerEvent.canContinueCheck false)) = true := by
  rw [List.all_eq_true] at h ⊢
  intro ev hev
  have hc := h ev hev
  cases ev with
  | canContinueCheck v =>
      cases v with
      | false => simp [RunnerEvent.isCheck] at hc
      | true => rfl
  | namespacesFetch i o => rfl
  | executorUpdate i t o => rfl
  | incrementFailedCount l => rfl
  | sleepGap => rfl
  | updateLastTimeUpdated => rfl

/-- noTenantAfterFalse skips over an event that is not a false check. -/
theorem noTenantAfterFalse_cons (a : RunnerEvent) (rest : List RunnerEvent)
    (h : (a == RunnerEvent.canContinueCheck false) = false) :
    noTenantAfterFalse (a :: rest) = noTenantAfterFalse rest := by
  cases a with
  | canContinueCheck v =>
      cases v with
      | false => exact absurd h (by decide)
      | true => rfl
  | namespacesFetch i o => rfl
  | executorUpdate i t o => rfl
  | incrementFailedCount l => rfl
  | sleepGap => rfl
  | updateLastTimeUpdated => rfl

/-- noTenantAfterFalse skips over an initial segment free of false checks. -/
theorem noTenantAfterFalse_append (evs1 evs2 : List RunnerEvent)
    (h : evs1.all (fun ev => !(ev == RunnerEvent.canContinueCheck false)) = true) :
    noTenantAfterFalse (evs1 ++ evs2) = noTenantAfterFalse evs2 := by
  induction evs1 with
  | nil => rfl
  | cons a rest ih =>
      rw [List.all_cons, Bool.and_eq_true] at h
      rw [List.cons_append, noTenantAfterFalse_cons a _ (by simpa using h.1)]
      exact ih h.2

/-- A trace without false checks reports hasFalseCheck = false. -/
theorem hasFalseCheck_false_of_count (evs : List RunnerEvent)
    (h : countFalseChecks evs = 0) : hasFalseCheck evs = false := by
  rw [countFalseChecks, List.countP_eq_zero] at h
  rw [hasFalseCheck]
  rw [List.any_eq_false]
  exact h

@[simp] theorem isCheck_canContinueCheck (v : Bool) :
    (RunnerEvent.canContinueCheck v).isCheck = true := rfl

@[simp] theorem isCheck_sleepGap : RunnerEvent.sleepGap.isCheck = false := rfl

@[simp] theorem isCheck_updateLastTimeUpdated :
    RunnerEvent.updateLastTimeUpdated.isCheck = false := rfl

@[simp] theorem isFetch_canContinueCheck (v : Bool) :
    (RunnerEvent.canContinueCheck v).isFetch = false := rfl

@[simp] theorem isFetch_sleepGap : RunnerEvent.sleepGap.isFetch = false := rfl

@[simp] theorem isFetch_updateLastTimeUpdated :
    RunnerEvent.updateLastTimeUpdated.isFetch = false := rfl

@[simp] theorem beq_check_check (v : Bool) :
    (RunnerEvent.canContinueCheck v == RunnerEvent.canContinueCheck false) = (v == false) := by
  cases v <;> decide

@[simp] theorem beq_sleepGap_check :
    (RunnerEvent.sleepGap == RunnerEvent.canContinueCheck false) = false := by decide

@[simp] theorem beq_updateLastTimeUpdated_check :
    (RunnerEvent.updateLastTimeUpdated == RunnerEvent.canContinueCheck false) = false := by decide

@[simp] theorem countChecks_nil : countChecks [] = 0 := rfl

@[simp] theorem countChecks_cons (a : RunnerEvent) (evs : List RunnerEvent) :
    countChecks (a :: evs) = countChecks evs + (if a.isCheck then 1 else 0) := by
  simp [countChecks, List.countP_cons]

@[simp] theorem countChecks_append (evs1 evs2 : List RunnerEvent) :
    countChecks (evs1 ++ evs2) = countChecks evs1 + countChecks evs2 := by
  simp [countChecks, List.countP_append]

@[simp] theorem countFalseChecks_nil : countFalseChecks [] = 0 := rfl

@[simp] theorem countFalseChecks_cons (a : RunnerEvent) (evs : List RunnerEvent) :
    countFalseChecks (a :: evs) =
      countFalseChecks evs + (if a == RunnerEvent.canContinueCheck false then 1 else 0) := by
  simp [countFalseChecks, List.countP_cons]

@[simp] theorem countFalseChecks_append (evs1 evs2 : List RunnerEvent) :
    countFalseChecks (evs1 ++ evs2) = countFalseChecks evs1 + countFalseChecks evs2 := by
  simp [countFalseChecks, List.countP_append]

@[simp] theorem countFetches_nil : countFetches [] = 0 := rfl

@[simp] theorem countFetches_cons (a : RunnerEvent) (evs : List RunnerEvent) :
    countFetches (a :: evs) = countFetches evs + (if a.isFetch then 1 else 0) := by
  simp [countFetches, List.countP_cons]

@[simp] theorem countFetches_append (evs1 evs2 : List RunnerEvent) :
    countFetches (evs1 ++ evs2) = countFetches evs1 + countFetches evs2 := by
  simp [countFetches, List.countP_append]

/-- The batch loop invariant: the trace of updateTenants started with
flag true holds exactly one false check when the returned flag is false
and none otherwise, every tenant-processing attempt is preceded by its
own passing check (counts match), no tenant is processed after a false
observation, and a false return leaves the kill switch recorded as
false on the database record. -/
theorem updateTenants_invariant (w : TenantWorld) (seq : Nat → Bool)
    (twv : List (EnvType × String)) (tenants : List Tenant) (st : RunnerState) :
    countFalseChecks (updateTenants w seq twv tenants st true).2.2 =
      (if (updateTenants w seq twv tenants st true).1 then 0 else 1) ∧
    countChecks (updateTenants w seq twv tenants st true).2.2 =
      countFetches (updateTenants w seq twv tenants st true).2.2 +
        countFalseChecks (updateTenants w seq twv tenants st true).2.2 ∧
    noTenantAfterFalse (updateTenants w seq twv tenants st true).2.2 = true ∧
    ((updateTenants w seq twv tenants st true).1 = false →
      (updateTenants w seq twv tenants st true).2.1.db.canContinue = false) := by
  induction tenants generalizing st with
  | nil =>
      simp [updateTenants, noTenantAfterFalse]
  | cons tnnt rest ih =>
      by_cases hc : seq st.checks = true
      · have heq : updateTenants w seq twv (tnnt :: rest) st true =
            ((updateTenants w seq twv rest
                (updateTenant w tnnt twv (nextRunnerState st true)).1 true).1,
             (updateTenants w seq twv rest
                (updateTenant w tnnt twv (nextRunnerState st true)).1 true).2.1,
             RunnerEvent.canContinueCheck true ::
               (updateTenant w tnnt twv (nextRunnerState st true)).2 ++
                 RunnerEvent.sleepGap ::
                   (updateTenants w seq twv rest
                      (updateTenant w tnnt twv (nextRunnerState st true)).1 true).2.2) := by
          conv_lhs => rw [updateTenants]
          simp [hc]
        obtain ⟨hnochk, hfetch⟩ :=
          updateTenant_events_shape w tnnt twv (nextRunnerState st true)
        have hnofalse := no_check_imp_no_false _ hnochk
        have hchk0 : countChecks (updateTenant w tnnt twv (nextRunnerState st true)).2 = 0 :=
          countP_zero_of_all_not _ _ hnochk
        have hfalse0 :
            countFalseChecks (updateTenant w tnnt twv (nextRunnerState st true)).2 = 0 :=
          countP_zero_of_all_not _ _ hnofalse
        obtain ⟨ih1, ih2, ih3, ih4⟩ := ih (updateTenant w tnnt twv (nextRunnerState st true)).1
        rw [heq]
        refine ⟨?_, ?_, ?_, ?_⟩
        · dsimp only
          simpa [hfalse0] using ih1
        · dsimp only
          simp [hchk0, hfalse0, hfetch]
          omega
        · dsimp only
          rw [List.cons_append]
          rw [noTenantAfterFalse_cons (RunnerEvent.canContinueCheck true) _ (by decide)]
          rw [noTenantAfterFalse_append _ _ hnofalse]
          rw [noTenantAfterFalse_cons RunnerEvent.sleepGap _ (by decide)]
          exact ih3
        · dsimp only
          exact ih4
      · have hcf : seq st.checks = false := by simpa using hc
        have heq : updateTenants w seq twv (tnnt :: rest) st true =
            (false, nextRunnerState st false, [RunnerEvent.canContinueCheck false]) := by
          conv_lhs => rw [updateTenants]
          simp [hcf]
        rw [heq]
        refine ⟨by simp, by simp, by simp [noTenantAfterFalse], ?_⟩
        intro _
        simp [nextRunnerState]

/-- A trace with countP zero falsifies the predicate everywhere. -/
theorem all_not_of_countP_zero (p : RunnerEvent → Bool) (evs : List RunnerEvent)
    (h : evs.countP p = 0) : evs.all (fun ev => !p ev) = true := by
  rw [List.countP_eq_zero] at h
  rw [List.all_eq_true]
  intro a ha
  simpa using h a ha

/-- The cluster-runner loop invariant: its whole trace never processes a
tenant after a false kill-switch observation, every tenant-processing
attempt is preceded by its own check, and when a false observation
occurred the loop ended without error with the kill switch recorded as
false on the database record. -/
theorem updateForCluster_invariant (w : TenantWorld) (seq : Nat → Bool)
    (twv : List (EnvType × String)) (batches : List (Except String (List Tenant)))
    (st : RunnerState) :
    noTenantAfterFalse (updateForCluster w seq twv batches st).2.2 = true ∧
    countChecks (updateForCluster w seq twv batches st).2.2 =
      countFetches (updateForCluster w seq twv batches st).2.2 +
        countFalseChecks (updateForCluster w seq twv batches st).2.2 ∧
    (hasFalseCheck (updateForCluster w seq twv batches st).2.2 = true →
      (updateForCluster w seq twv batches st).2.1 = none ∧
      (updateForCluster w seq twv batches st).1.db.canContinue = false) := by
  induction batches generalizing st with
  | nil => simp [updateForCluster, noTenantAfterFalse, hasFalseCheck]
  | cons b rest ih =>
      cases b with
      | error e => simp [updateForCluster, noTenantAfterFalse, hasFalseCheck]
      | ok toUpdate =>
          by_cases hlen : toUpdate.length = 0
          · simp [updateForCluster, hlen, noTenantAfterFalse, hasFalseCheck]
          · obtain ⟨ut1, ut2, ut3, ut4⟩ := updateTenants_invariant w seq twv toUpdate st
            by_cases hcont : (updateTenants w seq twv toUpdate st true).1 = true
            · have hfc0 : countFalseChecks (updateTenants w seq twv toUpdate st true).2.2 = 0 := by
                rw [ut1, if_pos hcont]
              have hnofalse := all_not_of_countP_zero _ _ hfc0
              have hnoany : hasFalseCheck (updateTenants w seq twv toUpdate st true).2.2 = false :=
                hasFalseCheck_false_of_count _ hfc0
              obtain ⟨ih1, ih2, ih3⟩ := ih (updateTenants w seq twv toUpdate st true).2.1
              have heq : updateForCluster w seq twv (Except.ok toUpdate :: rest) st =
                  ((updateForCluster w seq twv rest
                      (updateTenants w seq twv toUpdate st true).2.1).1,
                   (updateForCluster w seq twv rest
                      (updateTenants w seq twv toUpdate st true).2.1).2.1,
                   (updateTenants w seq twv toUpdate st true).2.2 ++
                     RunnerEvent.updateLastTimeUpdated ::
                       (updateForCluster w seq twv rest
                          (updateTenants w seq twv toUpdate st true).2.1).2.2) := by
                conv_lhs => rw [updateForCluster]
                simp [hlen, hcont]
              rw [heq]
              refine ⟨?_, ?_, ?_⟩
              · dsimp only
                rw [noTenantAfterFalse_append _ _ hnofalse]
                rw [noTenantAfterFalse_cons RunnerEvent.updateLastTimeUpdated _ (by decide)]
                exact ih1
              · dsimp only
                simp [hfc0]
                omega
              · dsimp only
                intro hfal
                rw [hasFalseCheck, List.any_append] at hfal
                rw [hasFalseCheck] at hnoany
                rw [hnoany] at hfal
                simp only [Bool.false_or, List.any_cons] at hfal
                have hfal2 : hasFalseCheck (updateForCluster w seq twv rest
                    (updateTenants w seq twv toUpdate st true).2.1).2.2 = true := by
                  rw [hasFalseCheck]
                  simpa using hfal
                exact ih3 hfal2
            · have hcf : (updateTenants w seq twv toUpdate st true).1 = false := by
                simpa using hcont
              have heq : updateForCluster w seq twv (Except.ok toUpdate :: rest) st =
                  ((updateTenants w seq twv toUpdate st true).2.1, none,
                   (updateTenants w seq twv toUpdate st true).2.2) := by
                conv_lhs => rw [updateForCluster]
                simp [hlen, hcf]
              rw [heq]
              exact ⟨ut3, ut2, fun _ => ⟨rfl, ut4 hcf⟩⟩

/-- C8: in a cluster run, the kill switch is checked before each tenant
(each tenant-processing attempt is counted against its own passing
check), once it is observed false no further tenant is ever processed in
the run, and an observed false leads to a clean (error-free) result
whose finalized status is Killed. -/
theorem kill_switch_stops_runner (w : TenantWorld) (seq : Nat → Bool)
    (twv : List (EnvType × String)) (batches : List (Except String (List Tenant)))
    (filterEnvType : FilterEnvType) (limitToCluster : String)
    (versionManagers : List VersionManager) (tu0 : TenantsUpdate) :
    noTenantAfterFalse (runClusterPass w seq twv batches filterEnvType limitToCluster
        versionManagers tu0).2 = true ∧
    countChecks (runClusterPass w seq twv batches filterEnvType limitToCluster
        versionManagers tu0).2 =
      countFetches (runClusterPass w seq twv batches filterEnvType limitToCluster
          versionManagers tu0).2 +
        countFalseChecks (runClusterPass w seq twv batches filterEnvType limitToCluster
            versionManagers tu0).2 ∧
    (hasFalseCheck (runClusterPass w seq twv batches filterEnvType limitToCluster
        versionManagers tu0).2 = true →
      ∃ tu, (runClusterPass w seq twv batches filterEnvType limitToCluster
          versionManagers tu0).1 = Except.ok tu ∧ tu.status = Status.Killed) := by
  obtain ⟨h1, h2, h3⟩ := updateForCluster_invariant w seq twv batches { db := tu0, checks := 0 }
  rcases hopt : (updateForCluster w seq twv batches { db := tu0, checks := 0 }).2.1 with _ | e
  · have hres : runClusterPass w seq twv batches filterEnvType limitToCluster
        versionManagers tu0 =
        (Except.ok (setStatusAndVersionsAfterUpdate filterEnvType limitToCluster versionManagers
            (updateForCluster w seq twv batches { db := tu0, checks := 0 }).1.db),
         (updateForCluster w seq twv batches { db := tu0, checks := 0 }).2.2) := by
      simp [runClusterPass, hopt]
    rw [hres]
    refine ⟨h1, h2, ?_⟩
    intro hfal
    obtain ⟨-, hcc⟩ := h3 hfal
    refine ⟨_, rfl, ?_⟩
    rw [setStatusAndVersionsAfterUpdate_status]
    simp [hcc]
  · have hres : runClusterPass w seq twv batches filterEnvType limitToCluster
        versionManagers tu0 =
        (Except.error e,
         (updateForCluster w seq twv batches { db := tu0, checks := 0 }).2.2) := by
      simp [runClusterPass, hopt]
    rw [hres]
    refine ⟨h1, h2, ?_⟩
    intro hfal
    obtain ⟨hnone, -⟩ := h3 hfal
    rw [hopt] at hnone
    cases hnone

/-- A world where every namespace fetch succeeds with no namespaces and
every executor call succeeds. -/
def wAllOk : TenantWorld :=
  { namespacesOf := fun _ => some [], executorFails := fun _ _ => false }

/-- A kill-switch history reading true twice and false from then on. -/
def seqFalseAfterTwo : Nat → Bool := fun k => decide (k < 2)

/-- Five tenants of one batch. -/
def fiveTenants : List Tenant :=
  [{ id := "t1", osUsername := "u1" }, { id := "t2", osUsername := "u2" },
   { id := "t3", osUsername := "u3" }, { id := "t4", osUsername := "u4" },
   { id := "t5", osUsername := "u5" }]

/-- A RunState record in the middle of a run. -/
def tuMidRun : TenantsUpdate :=
  { status := Status.Updating, lastTimeUpdated := 0, failedCount := 0,
    canContinue := true, versions := [] }

/-- Witness for C8: the kill switch goes false after tenant 2 of 5; the
run ends without error and finalizes as Killed. -/
theorem kill_switch_stops_runner_witness :
    ∃ tu, (runClusterPass wAllOk seqFalseAfterTwo [] [Except.ok fiveTenants]
        FilterEnvType.AllTypes "" [] tuMidRun).1 = Except.ok tu ∧
      tu.status = Status.Killed :=
  (kill_switch_stops_runner wAllOk seqFalseAfterTwo [] [Except.ok fiveTenants]
      FilterEnvType.AllTypes "" [] tuMidRun).2.2 (by decide)

/-- C7: when the executor Update call for a tenant fails, the runner
increments failedCount on the database record inside a locked
transaction, records the failure, and continues with the remaining
tenants of the batch exactly as if the tenant had succeeded: a single
executor failure never aborts the cluster runner. -/
theorem executor_failure_continues_batch (w : TenantWorld) (seq : Nat → Bool)
    (twv : List (EnvType × String)) (tnnt : Tenant) (rest : List Tenant)
    (st : RunnerState) (nss : List Namespace)
    (hc : seq st.checks = true)
    (hns : w.namespacesOf tnnt.id = some nss)
    (hfail : w.executorFails tnnt.id (computeEnvTypesToUpdate twv nss).1 = true) :
    updateTenants w seq twv (tnnt :: rest) st true =
      ((updateTenants w seq twv rest
          { db := { st.db with canContinue := true, failedCount := st.db.failedCount + 1 },
            checks := st.checks + 1 } true).1,
       (updateTenants w seq twv rest
          { db := { st.db with canContinue := true, failedCount := st.db.failedCount + 1 },
            checks := st.checks + 1 } true).2.1,
       RunnerEvent.canContinueCheck true ::
         RunnerEvent.namespacesFetch tnnt.id true ::
           RunnerEvent.executorUpdate tnnt.id (computeEnvTypesToUpdate twv nss).1 false ::
             RunnerEvent.incrementFailedCount true ::
               RunnerEvent.sleepGap ::
                 (updateTenants w seq twv rest
                    { db := { st.db with canContinue := true, failedCount := st.db.failedCount + 1 },
                      checks := st.checks + 1 } true).2.2) := by
  conv_lhs => rw [updateTenants]
  simp [hc, updateTenant, hns, hfail, nextRunnerState]

/-- A world where every tenant owns one outdated che namespace and every
executor call fails. -/
def wFailExec : TenantWorld :=
  { namespacesOf := fun _ =>
      some [{ type := "che", name := "t-che", version := "v1", state := NamespaceState.Ready }],
    executorFails := fun _ _ => true }

/-- A kill-switch history that always reads true. -/
def seqAllTrue : Nat → Bool := fun _ => true

/-- Witness for C7 at a concrete two-tenant batch whose first executor
call fails. -/
theorem executor_failure_continues_batch_witness :
    updateTenants wFailExec seqAllTrue [("che", "v2")]
        [{ id := "t1", osUsername := "u1" }, { id := "t2", osUsername := "u2" }]
        { db := tuMidRun, checks := 0 } true =
      ((updateTenants wFailExec seqAllTrue [("che", "v2")] [{ id := "t2", osUsername := "u2" }]
          { db := { status := Status.Updating, lastTimeUpdated := 0, failedCount := 1,
                    canContinue := true, versions := [] }, checks := 1 } true).1,
       (updateTenants wFailExec seqAllTrue [("che", "v2")] [{ id := "t2", osUsername := "u2" }]
          { db := { status := Status.Updating, lastTimeUpdated := 0, failedCount := 1,
                    canContinue := true, versions := [] }, checks := 1 } true).2.1,
       RunnerEvent.canContinueCheck true ::
         RunnerEvent.namespacesFetch "t1" true ::
           RunnerEvent.executorUpdate "t1" ["che"] false ::
             RunnerEvent.incrementFailedCount true ::
               RunnerEvent.sleepGap ::
                 (updateTenants wFailExec seqAllTrue [("che", "v2")]
                    [{ id := "t2", osUsername := "u2" }]
                    { db := { status := Status.Updating, lastTimeUpdated := 0, failedCount := 1,
                              canContinue := true, versions := [] }, checks := 1 } true).2.2) :=
  executor_failure_continues_batch wFailExec seqAllTrue [("che", "v2")]
    { id := "t1", osUsername := "u1" } [{ id := "t2", osUsername := "u2" }]
    { db := tuMidRun, checks := 0 }
    [{ type := "che", name := "t-che", version := "v1", state := NamespaceState.Ready }]
    rfl rfl rfl

/-- When every executor call succeeds, updateTenant leaves the runner
state unchanged (whether or not the namespace fetch succeeded). -/
theorem updateTenant_preserves (w : TenantWorld) (twv : List (EnvType × String))
    (hexec : ∀ tid tys, w.executorFails tid tys = false) (tnnt : Tenant) (st : RunnerState) :
    (updateTenant w tnnt twv st).1 = st := by
  rcases hns : w.namespacesOf tnnt.id with _ | nss
  · simp [updateTenant, hns]
  · simp [updateTenant, hns, hexec]

/-- When every executor call succeeds and the kill switch stays true,
the batch loop ends with flag true and the database record unchanged. -/
theorem updateTenants_preserves (w : TenantWorld) (seq : Nat → Bool)
    (twv : List (EnvType × String))
    (hexec : ∀ tid tys, w.executorFails tid tys = false)
    (hseq : ∀ k, seq k = true) (tenants : List Tenant) :
    ∀ st : RunnerState, st.db.canContinue = true →
      (updateTenants w seq twv tenants st true).1 = true ∧
      (updateTenants w seq twv tenants st true).2.1.db = st.db := by
  induction tenants with
  | nil =>
      intro st _
      simp [updateTenants]
  | cons tnnt rest ih =>
      intro st hcc
      have hdb : { st.db with canContinue := true } = st.db := by rw [← hcc]
      have heq : updateTenants w seq twv (tnnt :: rest) st true =
          ((updateTenants w seq twv rest
              (updateTenant w tnnt twv (nextRunnerState st true)).1 true).1,
           (updateTenants w seq twv rest
              (updateTenant w tnnt twv (nextRunnerState st true)).1 true).2.1,
           RunnerEvent.canContinueCheck true ::
             (updateTenant w tnnt twv (nextRunnerState st true)).2 ++
               RunnerEvent.sleepGap ::
                 (updateTenants w seq twv rest
                    (updateTenant w tnnt twv (nextRunnerState st true)).1 true).2.2) := by
        conv_lhs => rw [updateTenants]
        simp [hseq st.checks]
      have hpres := updateTenant_preserves w twv hexec tnnt (nextRunnerState st true)
      have hcc2 : (updateTenant w tnnt twv (nextRunnerState st true)).1.db.canContinue = true := by
        rw [hpres]
        rfl
      obtain ⟨ih1, ih2⟩ := ih (updateTenant w tnnt twv (nextRunnerState st true)).1 hcc2
      rw [heq]
      refine ⟨ih1, ?_⟩
      dsimp only
      rw [ih2, hpres]
      show { st.db with canContinue := true } = st.db
      exact hdb

/-- When every executor call succeeds, the kill switch stays true and
every batch query succeeds, the cluster loop ends without error and
leaves the database record unchanged. -/
theorem updateForCluster_preserves (w : TenantWorld) (seq : Nat → Bool)
    (twv : List (EnvType × String))
    (hexec : ∀ tid tys, w.executorFails tid tys = false)
    (hseq : ∀ k, seq k = true) (batches : List (Except String (List Tenant))) :
    ∀ st : RunnerState, st.db.canContinue = true →
      (∀ b ∈ batches, ∃ ts, b = Except.ok ts) →
      (updateForCluster w seq twv batches st).1.db = st.db ∧
      (updateForCluster w seq twv batches st).2.1 = none := by
  induction batches with
  | nil =>
      intro st _ _
      simp [updateForCluster]
  | cons b rest ih =>
      intro st hcc hb
      obtain ⟨ts, rfl⟩ := hb b (List.mem_cons_self b rest)
      by_cases hlen : ts.length = 0
      · simp [updateForCluster, hlen]
      · obtain ⟨hT, hDb⟩ := updateTenants_preserves w seq twv hexec hseq ts st hcc
        have heq : updateForCluster w seq twv (Except.ok ts :: rest) st =
            ((updateForCluster w seq twv rest (updateTenants w seq twv ts st true).2.1).1,
             (updateForCluster w seq twv rest (updateTenants w seq twv ts st true).2.1).2.1,
             (updateTenants w seq twv ts st true).2.2 ++
               RunnerEvent.updateLastTimeUpdated ::
                 (updateForCluster w seq twv rest
                    (updateTenants w seq twv ts st true).2.1).2.2) := by
          conv_lhs => rw [updateForCluster]
          simp [hlen, hT]
        have hcc2 : (updateTenants w seq twv ts st true).2.1.db.canContinue = true := by
          rw [hDb]
          exact hcc
        obtain ⟨ih1, ih2⟩ := ih (updateTenants w seq twv ts st true).2.1 hcc2
          (fun b2 hb2 => hb b2 (List.mem_cons_of_mem _ hb2))
        rw [heq]
        exact ⟨by dsimp only; rw [ih1, hDb], ih2⟩

/-- C10: when the namespace fetch for a tenant fails, that tenant is
skipped entirely: the state is unchanged and the only recorded step is
the failed fetch (the executor is not called and failedCount is not
incremented); consequently a run in which every executor call succeeds
still ends without error and finalizes as Finished in the unrestricted
configuration, even though such tenants were never updated. -/
theorem namespace_fetch_failure_skips_tenant (w : TenantWorld) (seq : Nat → Bool)
    (twv : List (EnvType × String)) (batches : List (Except String (List Tenant)))
    (ms : List VersionManager) (tu0 : TenantsUpdate) (tnnt : Tenant) (st : RunnerState)
    (hskip : w.namespacesOf tnnt.id = none)
    (hexec : ∀ tid tys, w.executorFails tid tys = false)
    (hseq : ∀ k, seq k = true)
    (hb : ∀ b ∈ batches, ∃ ts, b = Except.ok ts)
    (hcc : tu0.canContinue = true) (hfc : tu0.failedCount = 0) :
    updateTenant w tnnt twv st = (st, [RunnerEvent.namespacesFetch tnnt.id false]) ∧
    (runClusterPass w seq twv batches FilterEnvType.AllTypes "" ms tu0).1 =
      Except.ok (setStatusAndVersionsAfterUpdate FilterEnvType.AllTypes "" ms tu0) ∧
    (setStatusAndVersionsAfterUpdate FilterEnvType.AllTypes "" ms tu0).status =
      Status.Finished := by
  refine ⟨by simp [updateTenant, hskip], ?_, ?_⟩
  · obtain ⟨hdb, hnone⟩ := updateForCluster_preserves w seq twv hexec hseq batches
      { db := tu0, checks := 0 } hcc hb
    simp [runClusterPass, hnone, hdb]
  · rw [setStatusAndVersionsAfterUpdate_status]
    simp [hcc, hfc]

/-- A world where the namespace fetch fails for tenant t1 and succeeds
with no namespaces for everyone else, and every executor call
succeeds. -/
def wOneSkip : TenantWorld :=
  { namespacesOf := fun tid => if tid == "t1" then none else some [],
    executorFails := fun _ _ => false }

/-- Witness for C10: tenant t1 of a five-tenant batch is skipped on a
fetch failure and the run still finalizes as Finished. -/
theorem namespace_fetch_failure_skips_tenant_witness :
    updateTenant wOneSkip { id := "t1", osUsername := "u1" } [] { db := tuMidRun, checks := 0 } =
      ({ db := tuMidRun, checks := 0 }, [RunnerEvent.namespacesFetch "t1" false]) ∧
    (runClusterPass wOneSkip seqAllTrue [] [Except.ok fiveTenants]
        FilterEnvType.AllTypes "" [] tuMidRun).1 =
      Except.ok (setStatusAndVersionsAfterUpdate FilterEnvType.AllTypes "" [] tuMidRun) ∧
    (setStatusAndVersionsAfterUpdate FilterEnvType.AllTypes "" [] tuMidRun).status =
      Status.Finished :=
  namespace_fetch_failure_skips_tenant wOneSkip seqAllTrue [] [Except.ok fiveTenants] [] tuMidRun
    { id := "t1", osUsername := "u1" } { db := tuMidRun, checks := 0 }
    rfl (fun _ _ => rfl) (fun _ => rfl)
    (fun b hbm => ⟨fiveTenants, List.mem_singleton.mp hbm⟩) rfl rfl

/-- Modelled from the spec: utils.ListErrorsInMessage (not part of the
sources under analysis) collects all per-cluster runner errors and joins
them into a single aggregate error message, empty exactly when there was
no error. -/
def listErrorsInMessage : List String → String
  | [] => ""
  | e :: es => "errors while updating tenants: " ++ String.intercalate "; " (e :: es)

/-- The joined message of a nonempty error list is nonempty. -/
theorem listErrorsInMessage_ne_empty (e : String) (es : List String) :
    listErrorsInMessage (e :: es) ≠ "" := by
  intro h
  have hlen := congrArg String.length h
  rw [listErrorsInMessage, String.length_append] at hlen
  have hconst : ("errors while updating tenants: " : String).length = 31 := rfl
  rw [hconst] at hlen
  have hz : ("" : String).length = 0 := rfl
  rw [hz] at hlen
  omega

/-- The tail of updateTenantsForTypes after all cluster runners joined
(update.go lines 239-250), combined with the error handling of
UpdateAllTenants (lines 143-146) and HandleTenantUpdateError (lines
149-163): the per-cluster errors are joined into one message; when it is
nonempty the follow-up returns it as its error, so the caller reports it
(third component) and forces the status to Failed through a locked
UpdateStatus, skipping the finalization; when it is empty the locked
finalization setStatusAndVersionsAfterUpdate runs and saves. -/
def updateAllTenantsAfterRun (filterEnvType : FilterEnvType) (limitToCluster : String)
    (versionManagers : List VersionManager) (clusterErrors : List String)
    (tu : TenantsUpdate) : TenantsUpdate × List TriggerEvent × Option String :=
  let errorMsg := listErrorsInMessage clusterErrors
  if errorMsg ≠ "" then
    ({ tu with status := Status.Failed },
     [TriggerEvent.repoCall RepoOp.updateStatus true],
     some errorMsg)
  else
    (setStatusAndVersionsAfterUpdate filterEnvType limitToCluster versionManagers tu,
     [TriggerEvent.repoCall RepoOp.getTenantsUpdate true,
      TriggerEvent.repoCall RepoOp.saveTenantsUpdate true],
     none)

/-- A RunState record whose kill switch is off while the status is still
Updating: true finalization would produce Killed. -/
def tuKilledPending : TenantsUpdate :=
  { status := Status.Updating, lastTimeUpdated := 0, failedCount := 0,
    canContinue := false, versions := [] }

/-- C1 counterexample: with one failed cluster runner, finalization does
not happen: the status becomes Failed through the error handler (not the
Killed value that setStatusAndVersionsAfterUpdate would compute here)
and the trace holds only the UpdateStatus call, no read and no save of
the finalization. -/
theorem clusterErrors_skip_finalization_cex :
    (updateAllTenantsAfterRun FilterEnvType.AllTypes "" [] ["cluster boom"]
        tuKilledPending).1.status = Status.Failed ∧
    (updateAllTenantsAfterRun FilterEnvType.AllTypes "" [] ["cluster boom"]
        tuKilledPending).2.1 = [TriggerEvent.repoCall RepoOp.updateStatus true] ∧
    (setStatusAndVersionsAfterUpdate FilterEnvType.AllTypes "" [] tuKilledPending).status =
      Status.Killed := by decide

/-- C1 amended: the aggregate outcome joins all per-cluster runner
errors, but finalization happens only when no cluster runner failed;
when some failed, the joined aggregate message is reported and the
status is forced to Failed via UpdateStatus instead, with no
finalization read or save. -/
theorem aggregate_errors_gate_finalization (filterEnvType : FilterEnvType)
    (limitToCluster : String) (versionManagers : List VersionManager)
    (clusterErrors : List String) (tu : TenantsUpdate) :
    (clusterErrors = [] →
      updateAllTenantsAfterRun filterEnvType limitToCluster versionManagers clusterErrors tu =
        (setStatusAndVersionsAfterUpdate filterEnvType limitToCluster versionManagers tu,
         [TriggerEvent.repoCall RepoOp.getTenantsUpdate true,
          TriggerEvent.repoCall RepoOp.saveTenantsUpdate true],
         none)) ∧
    (clusterErrors ≠ [] →
      updateAllTenantsAfterRun filterEnvType limitToCluster versionManagers clusterErrors tu =
        ({ tu with status := Status.Failed },
         [TriggerEvent.repoCall RepoOp.updateStatus true],
         some (listErrorsInMessage clusterErrors))) := by
  constructor
  · rintro rfl
    simp [updateAllTenantsAfterRun, listErrorsInMessage]
  · intro hne
    cases clusterErrors with
    | nil => exact absurd rfl hne
    | cons e es =>
        have hx := listErrorsInMessage_ne_empty e es
        simp [updateAllTenantsAfterRun, hx]

/-- Witness for the amended C1 in both directions: a clean pass
finalizes, a failed pass reports the aggregate and forces Failed. -/
theorem aggregate_errors_gate_finalization_witness :
    updateAllTenantsAfterRun FilterEnvType.AllTypes "" [] [] tuMidRun =
      (setStatusAndVersionsAfterUpdate FilterEnvType.AllTypes "" [] tuMidRun,
       [TriggerEvent.repoCall RepoOp.getTenantsUpdate true,
        TriggerEvent.repoCall RepoOp.saveTenantsUpdate true],
       none) ∧
    updateAllTenantsAfterRun FilterEnvType.AllTypes "" [] ["boom"] tuMidRun =
      ({ tuMidRun with status := Status.Failed },
       [TriggerEvent.repoCall RepoOp.updateStatus true],
       some (listErrorsInMessage ["boom"])) :=
  ⟨(aggregate_errors_gate_finalization FilterEnvType.AllTypes "" [] [] tuMidRun).1 rfl,
   (aggregate_errors_gate_finalization FilterEnvType.AllTypes "" [] ["boom"] tuMidRun).2
     (by decide)⟩

/-- One static call site of a Repository operation in update.go, with
the flag telling whether the transaction at that site is obtained
through the exclusive-lock wrapper. -/
structure RepoCallSite where
  caller : String
  op : RepoOp
  lockHeld : Bool
deriving DecidableEq, Repr, BEq

/-- All call sites of Repository operations on the RunState record in
update.go: GetTenantsUpdate at line 103, PrepareForUpdating at line 93
(called from inside the locked closure of lines 101-136), UpdateStatus
at line 155, GetTenantsUpdate and PrepareForUpdating of waitAndRecheck
at lines 172 and 178, GetTenantsUpdate and SaveTenantsUpdate of
setStatusAndVersionsAfterUpdate at lines 288 and 314 (inside the locked
transaction of line 246), UpdateLastTimeUpdated at line 278,
CanContinue at line 325 (inside a plain transaction without the lock
wrapper), and IncrementFailedCount at line 371. -/
def repoCallSites : List RepoCallSite :=
  [{ caller := "UpdateAllTenants", op := RepoOp.getTenantsUpdate, lockHeld := true },
   { caller := "UpdateAllTenants", op := RepoOp.prepareForUpdating, lockHeld := true },
   { caller := "HandleTenantUpdateError", op := RepoOp.updateStatus, lockHeld := true },
   { caller := "waitAndRecheck", op := RepoOp.getTenantsUpdate, lockHeld := true },
   { caller := "waitAndRecheck", op := RepoOp.prepareForUpdating, lockHeld := true },
   { caller := "setStatusAndVersionsAfterUpdate", op := RepoOp.getTenantsUpdate, lockHeld := true },
   { caller := "setStatusAndVersionsAfterUpdate", op := RepoOp.saveTenantsUpdate, lockHeld := true },
   { caller := "updateForCluster", op := RepoOp.updateLastTimeUpdated, lockHeld := true },
   { caller := "updateTenants", op := RepoOp.canContinue, lockHeld := false },
   { caller := "updateTenant", op := RepoOp.incrementFailedCount, lockHeld := true }]

/-- C9 counterexample: the per-tenant CanContinue read of updateTenants
(update.go line 325) runs inside a plain transaction without the
exclusive-lock wrapper used at every other call site, so not every
repository operation on the RunState record happens under the lock. -/
theorem canContinue_unlocked_cex :
    repoCallSites.contains
      (RepoCallSite.mk "updateTenants" RepoOp.canContinue false) = true ∧
    ¬ (repoCallSites.all (fun site => site.lockHeld) = true) := by decide

/-- C9 amended: every repository call site of update.go holds the
exclusive lock except the per-tenant CanContinue read inside
updateTenants, which runs in a plain transaction. -/
theorem repo_ops_locked_except_canContinue :
    repoCallSites.all (fun site =>
      site.lockHeld ||
        (site.caller == "updateTenants" && site.op == RepoOp.canContinue)) = true := by decide

end Fabric8Update
